import Mathlib

/-!
# DARWIN-CLI: the console front end of the XBee driver (`src/main.c`)

A shallow embedding of `parse_cmd`, `tx_thread` and `rx_thread` of `src/main.c`.

* A C `char` is a Lean `Char`; a buffer is a `List Char`; the C string held by a
  buffer is the run of characters before its first 0 byte (`cstr`).
* The engine operations `xb_*` are declared in `src/xbee.h` and implemented
  elsewhere; `parse_cmd` is embedded over an `Engine` that supplies their return
  values, and every effect of `parse_cmd` (mutex operations, `printf`, engine
  calls) is recorded, in program order, in a trace of `Event`s.
* A null pointer handed to `strtoll`, `strtol` or `strcmp` ends the run: the
  outcome has `returned = false` and the trace stops there.
* `strtoll` / `strtol` are the C library functions, embedded from ISO C 7.22.1.4
  for base 16 with a 64-bit `long` and `long long` (LP64 Linux, the platform of the
  serial device file the program opens); `size_t` has 64 bits as well.
* `tx_thread` and `rx_thread` are embedded one loop iteration at a time, each thread
  on its own: `tx_step` consumes the character `getchar` returned, `rx_iteration`
  the result of `serial_read`. A store outside `tx_buff` makes `tx_step` fail.
  The call `parse_cmd(tx_buff)` is an event of the loop that carries the buffer; the
  loop goes on with the buffer as the split loop of `parse_cmd` leaves it.
-/

namespace Darwin

/-! ## C strings -/

/-- The 0 byte that terminates a C string. -/
def NUL : Char := Char.ofNat 0

/-- The C string stored at the start of a buffer: the characters before the first
0 byte (the end of the list counts as a terminator). -/
def cstr (buf : List Char) : List Char :=
  buf.takeWhile (fun c => c != NUL)

/-- C `strlen`. -/
def strlen (buf : List Char) : Nat :=
  (cstr buf).length

/-! ## `strtol` / `strtoll`, base 16 -/

/-- C `isspace` in the "C" locale: space, `\t`, `\n`, `\v`, `\f`, `\r`. -/
def isspace (c : Char) : Bool :=
  c.toNat == 32 || (9 ≤ c.toNat && c.toNat ≤ 13)

/-- The value of a hexadecimal digit, `none` for any other character. -/
def hexDigit (c : Char) : Option Nat :=
  if 48 ≤ c.toNat ∧ c.toNat ≤ 57 then some (c.toNat - 48)
  else if 97 ≤ c.toNat ∧ c.toNat ≤ 102 then some (c.toNat - 87)
  else if 65 ≤ c.toNat ∧ c.toNat ≤ 70 then some (c.toNat - 55)
  else none

/-- The digit values of the longest run of hexadecimal digits at the start of `s`. -/
def hexDigits : List Char → List Nat
  | [] => []
  | c :: cs =>
    match hexDigit c with
    | some d => d :: hexDigits cs
    | none => []

/-- The number a list of hexadecimal digit values denotes, most significant first. -/
def hexValue (ds : List Nat) : Nat :=
  ds.foldl (fun acc d => 16 * acc + d) 0

/-- An optional sign: (negative?, characters consumed, remainder). -/
def stripSign : List Char → Bool × Nat × List Char
  | [] => (false, 0, [])
  | c :: t =>
    if c.toNat = 45 then (true, 1, t)
    else if c.toNat = 43 then (false, 1, t)
    else (false, 0, c :: t)

/-- An optional `0x` / `0X` prefix, taken only when a hexadecimal digit follows it:
(characters consumed, remainder). -/
def stripPrefix : List Char → Nat × List Char
  | z :: x :: h :: t =>
    if z.toNat = 48 ∧ (x.toNat = 120 ∨ x.toNat = 88) ∧ (hexDigit h).isSome then (2, h :: t)
    else (0, z :: x :: h :: t)
  | s => (0, s)

/-- What a base-16 `strto*` scan finds in `s`. -/
structure Scan where
  /-- whether a conversion was performed -/
  converted : Bool
  /-- the value of the subject sequence, before any clamping to the result type -/
  value : Int
  /-- `end_ptr - nptr`: 0 exactly when no conversion was performed -/
  consumed : Nat
deriving DecidableEq, Repr

/-- The base-16 scan shared by `strtol` and `strtoll`: white space, an optional sign,
an optional `0x`, then hexadecimal digits. Without a digit there is no conversion and
`end_ptr` is the start of the string. -/
def scan16 (s : List Char) : Scan :=
  let ws := s.takeWhile isspace
  let s1 := s.dropWhile isspace
  let sg := stripSign s1
  let px := stripPrefix sg.2.2
  let ds := hexDigits px.2
  if ds.isEmpty then
    { converted := false, value := 0, consumed := 0 }
  else
    { converted := true
      value := if sg.1 then -(hexValue ds : Int) else (hexValue ds : Int)
      consumed := ws.length + sg.2.1 + px.1 + ds.length }

/-- Width of `long` and of `long long`. -/
def LONG_BITS : Nat := 64

/-- A value out of the range of the signed result type becomes the nearest limit
(`LONG_MAX` / `LONG_MIN`). -/
def clampSigned (bits : Nat) (v : Int) : Int :=
  if v > 2 ^ (bits - 1) - 1 then 2 ^ (bits - 1) - 1
  else if v < -(2 ^ (bits - 1)) then -(2 ^ (bits - 1))
  else v

/-- C `strtoll(s, &end_ptr, 16)`: (returned value, `end_ptr - s`). -/
def strtoll (s : List Char) : Int × Nat :=
  (clampSigned LONG_BITS (scan16 s).value, (scan16 s).consumed)

/-- C `strtol(s, &end_ptr, 16)`: (returned value, `end_ptr - s`). -/
def strtol (s : List Char) : Int × Nat :=
  (clampSigned LONG_BITS (scan16 s).value, (scan16 s).consumed)

/-- Conversion of a signed value to `uint64_t`. -/
def to_uint64 (v : Int) : Nat :=
  (v % 2 ^ 64).toNat

/-- Conversion of a signed value to `uint16_t`. -/
def to_uint16 (v : Int) : Nat :=
  (v % 2 ^ 16).toNat

/-! ## The engine interface (`src/xbee.h`) -/

inductive xb_ret_t where
  | XB_OK
  | XB_ERR
deriving DecidableEq, Repr

inductive xb_dio_t where
  | XB_DIO12
deriving DecidableEq, Repr

inductive xb_dio_output_t where
  | XB_DIO_HIGH
  | XB_DIO_LOW
deriving DecidableEq, Repr

/-- A call of an engine operation, with its arguments. `xb_send` gets the C string at
its data pointer and the length argument. -/
inductive Call where
  | xb_init
  | xb_send (data : List Char) (len : Nat)
  | xb_set_default_dst (addr : Nat)
  | xb_set_net_id (id : Nat)
  | xb_cmd_remote_dio (dio : xb_dio_t) (output : xb_dio_output_t)
  | xb_cmd_dio (dio : xb_dio_t) (output : xb_dio_output_t)
deriving DecidableEq, Repr

/-- The return values of the fallible engine operations. -/
structure Engine where
  xb_init : xb_ret_t
  xb_send : List Char → Nat → xb_ret_t
  xb_set_net_id : Nat → xb_ret_t
  xb_cmd_remote_dio : xb_dio_t → xb_dio_output_t → xb_ret_t
  xb_cmd_dio : xb_dio_t → xb_dio_output_t → xb_ret_t

/-- An engine every operation of which succeeds. -/
def engine_ok : Engine :=
  { xb_init := .XB_OK, xb_send := fun _ _ => .XB_OK, xb_set_net_id := fun _ => .XB_OK,
    xb_cmd_remote_dio := fun _ _ => .XB_OK, xb_cmd_dio := fun _ _ => .XB_OK }

/-- An engine every fallible operation of which fails. -/
def engine_err : Engine :=
  { xb_init := .XB_ERR, xb_send := fun _ _ => .XB_ERR, xb_set_net_id := fun _ => .XB_ERR,
    xb_cmd_remote_dio := fun _ _ => .XB_ERR, xb_cmd_dio := fun _ _ => .XB_ERR }

/-- An effect of `parse_cmd`. -/
inductive Event where
  | lock
  | unlock
  | printf (text : String)
  | call (c : Call)
deriving DecidableEq, Repr

/-- A run of `parse_cmd`: its effects in program order, and whether it reached its
end (`false`: it passed a null pointer to a C library function). -/
structure Outcome where
  trace : List Event
  returned : Bool
deriving DecidableEq, Repr

/-! ## `parse_cmd` -/

/-- The result of the loop that splits the command at its first space. -/
structure Split where
  /-- the C string at `first` (= `cmd`) after the loop -/
  first : List Char
  /-- the C string at `rest`; `none` is the null pointer -/
  rest : Option (List Char)
  /-- the buffer after the loop (the space overwritten by 0) -/
  buf : List Char
deriving DecidableEq, Repr

/-- Lines 30-47 of `parse_cmd`: scan for a space (checked first) or the terminator. -/
def split_cmd : List Char → Split
  | [] => { first := [], rest := none, buf := [] }
  | c :: cs =>
    if c.toNat = 32 then { first := [], rest := some (cstr cs), buf := NUL :: cs }
    else if c = NUL then { first := [], rest := none, buf := c :: cs }
    else
      let s := split_cmd cs
      { first := c :: s.first, rest := s.rest, buf := c :: s.buf }

/-- The lines printed by `help`. -/
def help_text : List Event :=
  [ .printf "possible commands are:\n",
    .printf "\tinit                   --- initialize the XBee, must be run within 1s of power on\n",
    .printf "\tsend [data to send]    --- transmit data from the XBee\n",
    .printf "\tdst [64-bit hex addr]  --- set the destination address, assumes entered as big endian\n",
    .printf "\tnet_id [16-bit hex]    --- set the network ID, assumed entered as big endian\n",
    .printf "\tremote_vtx [on / off]  --- turn the video transmitter (DIO12) on (high) or off (low)\n",
    .printf "\tlocal_vtx [on / off]   --- turn the video transmitter (DIO12) on (high) or off (low)\n",
    .printf "\thelp                   --- display this menu\n" ]

/-- The success / failure report that follows a fallible engine call. -/
def report (ret : xb_ret_t) (failure success : String) : Event :=
  if ret ≠ xb_ret_t.XB_OK then .printf failure else .printf success

/-- The address the `dst` branch computes: `uint64_t addr = strtoll(rest, &end_ptr, 16)`. -/
def dst_addr (rest : List Char) : Nat :=
  to_uint64 (strtoll rest).1

/-- The id the `net_id` branch computes: `uint16_t id = strtol(rest, &end_ptr, 16)`. -/
def net_id_value (rest : List Char) : Nat :=
  to_uint16 (strtol rest).1

/-- The `remote_vtx` / `local_vtx` branches after the lock is taken; `op` is the engine
call, `ret` its result, `name` is "remote" or "local". -/
def vtx_branch (name : String) (op : xb_dio_t → xb_dio_output_t → Call)
    (ret : xb_dio_t → xb_dio_output_t → xb_ret_t) (rest : Option (List Char)) :
    List Event × Bool :=
  match rest with
  | none => ([], false)
  | some r =>
    if r = "on".toList then
      ([ .printf ("turning " ++ name ++ " VTX on\n"), .unlock,
         .call (op .XB_DIO12 .XB_DIO_HIGH), .lock,
         report (ret .XB_DIO12 .XB_DIO_HIGH) "command DIO failure\n" "command complete\n" ], true)
    else if r = "off".toList then
      ([ .printf ("turning " ++ name ++ " VTX off\n"), .unlock,
         .call (op .XB_DIO12 .XB_DIO_LOW), .lock,
         report (ret .XB_DIO12 .XB_DIO_LOW) "command DIO failure\n" "command complete\n" ], true)
    else
      ([ .printf "error: valid parameters for vtx are [on / off]\n" ], true)

/-- Lines 51-166 of `parse_cmd`: the effects between the first `pthread_mutex_lock` and
the last `pthread_mutex_unlock`, and whether the end of the chain was reached. -/
def parse_body (E : Engine) (first : List Char) (rest : Option (List Char)) :
    List Event × Bool :=
  if first = "help".toList then
    (help_text, true)
  else if first = "init".toList then
    ([ .printf "initializing XBee\n", .unlock, .call .xb_init, .lock,
       report E.xb_init "init failure\n" "init successful\n" ], true)
  else if first = "send".toList then
    match rest with
    | some r =>
      ([ .printf ("sending: " ++ String.mk r ++ "\n"), .unlock,
         .call (.xb_send r (strlen r)), .lock,
         report (E.xb_send r (strlen r)) "send failure!\n" "send complete\n" ], true)
    | none => ([ .printf "no data to send!\n" ], true)
  else if first = "dst".toList then
    match rest with
    | none => ([], false)
    | some r =>
      if (strtoll r).2 ≠ 0 then
        ([ .printf "failed to convert address\n" ], true)
      else
        ([ .call (.xb_set_default_dst (dst_addr r)),
           .printf "set new default destination address\n" ], true)
  else if first = "net_id".toList then
    match rest with
    | none => ([], false)
    | some r =>
      if (strtol r).2 ≠ 0 then
        ([ .printf "failed to convert address\n" ], true)
      else
        ([ .call (.xb_set_net_id (net_id_value r)),
           .printf "set new network id\n" ], true)
  else if first = "remote_vtx".toList then
    vtx_branch "remote" Call.xb_cmd_remote_dio E.xb_cmd_remote_dio rest
  else if first = "local_vtx".toList then
    vtx_branch "local" Call.xb_cmd_dio E.xb_cmd_dio rest
  else
    ([ .printf "unknown command\n" ], true)

/-- The function `parse_cmd` of `src/main.c` on the buffer `cmd`. -/
def parse_cmd (E : Engine) (cmd : List Char) : Outcome :=
  let s := split_cmd cmd
  let b := parse_body E s.first s.rest
  { trace := Event.lock :: b.1 ++ (if b.2 then [Event.unlock] else [])
    returned := b.2 }

/-- The engine calls of a trace, in order. -/
def calls : List Event → List Call
  | [] => []
  | .call c :: es => c :: calls es
  | _ :: es => calls es

/-- The engine calls of a trace, each with the number of times `stdio_lock` is held
by `parse_cmd` at the moment of the call; `held` is the count before the trace. -/
def held_at_calls (held : Nat) : List Event → List (Call × Nat)
  | [] => []
  | .lock :: es => held_at_calls (held + 1) es
  | .unlock :: es => held_at_calls (held - 1) es
  | .call c :: es => (c, held) :: held_at_calls held es
  | .printf _ :: es => held_at_calls held es

/-- The number of times `stdio_lock` is held after a trace, `held` being the count
before it. -/
def held_after (held : Nat) : List Event → Nat
  | [] => held
  | .lock :: es => held_after (held + 1) es
  | .unlock :: es => held_after (held - 1) es
  | _ :: es => held_after held es

/-- The lock count of `parse_cmd` with which the code calls an engine operation: the
`dst` and `net_id` branches call between the first lock and the last unlock, the
other branches unlock before the call. -/
def held_for : Call → Nat
  | .xb_set_default_dst _ => 1
  | .xb_set_net_id _ => 1
  | _ => 0

/-- What holds of the part of a trace between the first lock and the last unlock: it
ends with the lock held once, and each engine call in it is made with the lock count
`held_for` gives. -/
def LockShape (body : List Event) : Prop :=
  held_after 1 body = 1
    ∧ held_at_calls 1 body = (calls body).map (fun c => (c, held_for c))

/-- The command word of a line: the text `parse_cmd` compares with its command names. -/
def cmd_word (cmd : List Char) : List Char :=
  (split_cmd cmd).first

/-- The argument of a line: the text after its first space, `none` without a space. -/
def cmd_arg (cmd : List Char) : Option (List Char) :=
  (split_cmd cmd).rest

/-! ## `tx_thread` -/

/-- The globals `tx_buff` (1024 bytes) and `tx_i`. -/
structure TxState where
  tx_buff : List Char
  tx_i : Nat
deriving DecidableEq, Repr

/-- An effect of `tx_thread`; `parse_cmd buf` is the call `parse_cmd(tx_buff)` with the
contents of `tx_buff` at that moment. -/
inductive TxEvent where
  | lock
  | unlock
  | printf (text : String)
  | parse_cmd (buf : List Char)
deriving DecidableEq, Repr

/-- The store `buf[i] = c`; `none` when `i` is outside the buffer. -/
def store (buf : List Char) (i : Nat) (c : Char) : Option (List Char) :=
  if i < buf.length then some (buf.set i c) else none

/-- The state at the start of `tx_thread`: a zeroed buffer and `tx_i = 0`. -/
def tx_init : TxState :=
  { tx_buff := List.replicate 1024 NUL, tx_i := 0 }

/-- One iteration of the loop of `tx_thread` on the character `c` that `getchar`
returned; `none` when the iteration stores outside `tx_buff`. The buffer after a call
of `parse_cmd` is the one its split loop leaves. -/
def tx_step (st : TxState) (c : Char) : Option (TxState × List TxEvent) :=
  if c.toNat = 10 then
    match store st.tx_buff st.tx_i NUL with
    | none => none
    | some b =>
      if st.tx_i > 0 then
        some ({ tx_buff := (split_cmd b).buf, tx_i := 0 },
              [.parse_cmd b, .lock, .printf "\n> ", .unlock])
      else
        some ({ tx_buff := b, tx_i := 0 }, [.lock, .printf "\n> ", .unlock])
  else
    match store st.tx_buff st.tx_i c with
    | none => none
    | some b =>
      if st.tx_i + 1 > 1023 then
        some ({ tx_buff := b, tx_i := 0 },
              [.lock, .printf "no more room in command buffer\n", .printf "\n> ", .unlock])
      else
        some ({ tx_buff := b, tx_i := st.tx_i + 1 }, [])

/-- The loop of `tx_thread` over the characters `getchar` returns, from state `st`:
the state at the top of the next iteration and the effects so far. -/
def tx_run (st : TxState) : List Char → Option (TxState × List TxEvent)
  | [] => some (st, [])
  | c :: cs =>
    match tx_step st c with
    | none => none
    | some (st1, ev1) =>
      match tx_run st1 cs with
      | none => none
      | some (st2, ev2) => some (st2, ev1 ++ ev2)

/-! ## `rx_thread` -/

/-- Width of `size_t`. -/
def SIZE_BITS : Nat := 64

/-- Conversion of an `int` to `size_t`. -/
def to_size_t (n : Int) : Nat :=
  (n % 2 ^ SIZE_BITS).toNat

/-- An effect of `rx_thread`. `dump n` is the loop `for(size_t i = 0; i < len; i++)`
that prints `rx_buff[i]`: it reads `rx_buff[i]` for every `i < n`. -/
inductive RxEvent where
  | lock
  | unlock
  | printf (text : String)
  | dump (n : Nat)
  | xb_raw_recv (len : Nat)
  | usleep (us : Nat)
deriving DecidableEq, Repr

/-- One iteration of the loop `while(1)` of `rx_thread`, which has no exit; `len` is
what `serial_read(rx_buff, 1024)` returned. In `i < len` and in the call of
`xb_raw_recv` the `int len` is converted to `size_t`. -/
def rx_iteration (len : Int) : List RxEvent :=
  (if len ≠ 0 then
    [ .lock, .printf "\nreceived data on serial: 0x", .dump (to_size_t len), .printf "\n",
      .unlock, .xb_raw_recv (to_size_t len) ]
   else []) ++ [ .usleep 1000 ]

/-- The lengths handed to `xb_raw_recv`, in order. -/
def recv_lengths : List RxEvent → List Nat
  | [] => []
  | .xb_raw_recv n :: es => n :: recv_lengths es
  | _ :: es => recv_lengths es

/-- The bounds of the dump loops, in order. -/
def dump_bounds : List RxEvent → List Nat
  | [] => []
  | .dump n :: es => n :: dump_bounds es
  | _ :: es => dump_bounds es

/-- Size of `rx_buff` and of `tx_buff`. -/
def BUFF_SIZE : Nat := 1024

/-! ## Lemmas on C strings and on the split loop -/

theorem cstr_eq_self (s : List Char) (h : NUL ∉ s) : cstr s = s := by
  unfold cstr
  rw [List.takeWhile_eq_self_iff]
  intro c hc
  have : c ≠ NUL := fun e => h (e ▸ hc)
  simpa using this

theorem strlen_eq_length (s : List Char) (h : NUL ∉ s) : strlen s = s.length := by
  unfold strlen
  rw [cstr_eq_self s h]

theorem split_cmd_word_arg (w arg : List Char)
    (hw : ∀ c ∈ w, c.toNat ≠ 32 ∧ c ≠ NUL) :
    split_cmd (w ++ Char.ofNat 32 :: arg)
      = { first := w, rest := some (cstr arg), buf := w ++ NUL :: arg } := by
  induction w with
  | nil => simp [split_cmd]
  | cons c w ih =>
    have hc := hw c (List.mem_cons_self c w)
    have ih1 := ih (fun d hd => hw d (List.mem_cons_of_mem c hd))
    simp [split_cmd, hc.1, hc.2, ih1]

theorem split_cmd_buf_length (buf : List Char) : (split_cmd buf).buf.length = buf.length := by
  induction buf with
  | nil => simp [split_cmd]
  | cons c cs ih =>
    unfold split_cmd
    split_ifs <;> simp [ih]

theorem scan16_consumed_ne_zero (s : List Char) (h : (scan16 s).converted = true) :
    (scan16 s).consumed ≠ 0 := by
  by_cases hds : (hexDigits (stripPrefix (stripSign (List.dropWhile isspace s)).2.2).2).isEmpty
  · simp [scan16, hds] at h
  · have hlen : (hexDigits (stripPrefix (stripSign (List.dropWhile isspace s)).2.2).2).length ≠ 0 := by
      intro h0
      exact hds (by simp [List.length_eq_zero.mp h0])
    simp only [scan16, hds]
    simp only [Bool.false_eq_true, if_false]
    omega

theorem scan16_not_converted (s : List Char) (h : (scan16 s).converted = false) :
    (scan16 s).consumed = 0 ∧ (scan16 s).value = 0 := by
  by_cases hds : (hexDigits (stripPrefix (stripSign (List.dropWhile isspace s)).2.2).2).isEmpty
  · simp [scan16, hds]
  · simp [scan16, hds] at h

/-! ## `strtol` / `strtoll` on a hexadecimal numeral -/

theorem hexDigit_range (c : Char) (h : (hexDigit c).isSome = true) :
    (48 ≤ c.toNat ∧ c.toNat ≤ 57) ∨ (97 ≤ c.toNat ∧ c.toNat ≤ 102)
      ∨ (65 ≤ c.toNat ∧ c.toNat ≤ 70) := by
  unfold hexDigit at h
  split_ifs at h with h1 h2 h3
  · exact Or.inl h1
  · exact Or.inr (Or.inl h2)
  · exact Or.inr (Or.inr h3)
  · simp at h

theorem hexDigit_not_space (c : Char) (h : (hexDigit c).isSome = true) :
    isspace c = false := by
  have hr := hexDigit_range c h
  unfold isspace
  simp only [Bool.or_eq_false_iff, Bool.and_eq_false_iff, beq_eq_false_iff_ne,
    decide_eq_false_iff_not]
  omega

theorem hexDigit_ne_nul (c : Char) (h : (hexDigit c).isSome = true) : c ≠ NUL := by
  have hr := hexDigit_range c h
  intro e
  have h0 : c.toNat = 0 := by rw [e]; rfl
  omega

theorem hexDigits_length (s : List Char) (h : ∀ c ∈ s, (hexDigit c).isSome = true) :
    (hexDigits s).length = s.length := by
  induction s with
  | nil => rfl
  | cons c t ih =>
    have hc := h c (List.mem_cons_self c t)
    have ht := ih (fun d hd => h d (List.mem_cons_of_mem c hd))
    unfold hexDigits
    cases hd : hexDigit c with
    | none => simp [hd] at hc
    | some d => simp [ht]

theorem stripSign_hex (c : Char) (t : List Char) (h : (hexDigit c).isSome = true) :
    stripSign (c :: t) = (false, 0, c :: t) := by
  have hr := hexDigit_range c h
  have h45 : ¬ c.toNat = 45 := by omega
  have h43 : ¬ c.toNat = 43 := by omega
  simp only [stripSign, if_neg h45, if_neg h43]

theorem stripPrefix_hex (s : List Char) (h : ∀ c ∈ s, (hexDigit c).isSome = true) :
    stripPrefix s = (0, s) := by
  match s with
  | [] => rfl
  | [_] => rfl
  | [_, _] => rfl
  | z :: x :: d :: t =>
    have hx := hexDigit_range x (h x (by simp))
    have hcond : ¬ (z.toNat = 48 ∧ (x.toNat = 120 ∨ x.toNat = 88)
        ∧ (hexDigit d).isSome = true) := by
      intro hh
      have := hh.2.1
      omega
    simp only [stripPrefix, if_neg hcond]

/-- On a non-empty string of hexadecimal digits the scan converts the whole string. -/
theorem scan16_hex_numeral (s : List Char) (hne : s ≠ [])
    (h : ∀ c ∈ s, (hexDigit c).isSome = true) :
    scan16 s = { converted := true, value := (hexValue (hexDigits s) : Int),
                 consumed := s.length } := by
  obtain ⟨c, t, rfl⟩ := List.exists_cons_of_ne_nil hne
  have hc := h c (List.mem_cons_self c t)
  have hsp := hexDigit_not_space c hc
  have htw : List.takeWhile isspace (c :: t) = [] := by simp [List.takeWhile, hsp]
  have hdw : List.dropWhile isspace (c :: t) = c :: t := by simp [List.dropWhile, hsp]
  have hlen := hexDigits_length (c :: t) h
  have hnil : (hexDigits (c :: t)).isEmpty = false := by
    cases hd : hexDigits (c :: t) with
    | nil => rw [hd] at hlen; simp at hlen
    | cons _ _ => rfl
  unfold scan16
  simp only [htw, hdw, stripSign_hex c t hc, stripPrefix_hex (c :: t) h, hnil, hlen]
  simp

theorem hex_numeral_no_nul (s : List Char) (h : ∀ c ∈ s, (hexDigit c).isSome = true) :
    NUL ∉ s :=
  fun hmem => hexDigit_ne_nul NUL (h NUL hmem) rfl

/-- The address the `dst` branch computes from a hexadecimal numeral: the number it
denotes, replaced by `LLONG_MAX` when it is larger. -/
theorem dst_addr_hex_numeral (s : List Char) (hne : s ≠ [])
    (h : ∀ c ∈ s, (hexDigit c).isSome = true) :
    dst_addr s = min (hexValue (hexDigits s)) 0x7FFFFFFFFFFFFFFF := by
  unfold dst_addr strtoll to_uint64 clampSigned LONG_BITS
  rw [scan16_hex_numeral s hne h]
  simp only
  generalize hexValue (hexDigits s) = v
  split_ifs with h1 h2
  · have : min v 0x7FFFFFFFFFFFFFFF = 0x7FFFFFFFFFFFFFFF := by
      apply Nat.min_eq_right
      norm_num at h1
      omega
    rw [this]
    rfl
  · exfalso
    norm_num at h2
    omega
  · norm_num at h1
    have hv : v ≤ 0x7FFFFFFFFFFFFFFF := by omega
    rw [Nat.min_eq_left hv]
    have : ((v : Int) % 2 ^ 64) = (v : Int) := by
      apply Int.emod_eq_of_lt <;> omega
    rw [this]
    simp

/-! ## The `dst` and `net_id` branches -/

theorem parse_cmd_net_id_arg (E : Engine) (arg : List Char) (hnul : NUL ∉ arg) :
    parse_cmd E ("net_id ".toList ++ arg)
      = if (strtol arg).2 ≠ 0 then
          { trace := [.lock, .printf "failed to convert address\n", .unlock], returned := true }
        else
          { trace := [.lock, .call (.xb_set_net_id (net_id_value arg)),
                      .printf "set new network id\n", .unlock], returned := true } := by
  have hs := split_cmd_word_arg "net_id".toList arg (by decide)
  have hcat : "net_id ".toList ++ arg = "net_id".toList ++ Char.ofNat 32 :: arg := rfl
  rw [cstr_eq_self arg hnul] at hs
  unfold parse_cmd
  rw [hcat, hs]
  have hb : parse_body E "net_id".toList (some arg)
      = if (strtol arg).2 ≠ 0 then ([ .printf "failed to convert address\n" ], true)
        else ([ .call (.xb_set_net_id (net_id_value arg)),
                .printf "set new network id\n" ], true) := rfl
  simp only [hb]
  by_cases hc : (strtol arg).2 ≠ 0
  · rw [if_pos hc, if_pos hc]; rfl
  · rw [if_neg hc, if_neg hc]; rfl

theorem parse_cmd_dst_arg (E : Engine) (arg : List Char) (hnul : NUL ∉ arg) :
    parse_cmd E ("dst ".toList ++ arg)
      = if (strtoll arg).2 ≠ 0 then
          { trace := [.lock, .printf "failed to convert address\n", .unlock], returned := true }
        else
          { trace := [.lock, .call (.xb_set_default_dst (dst_addr arg)),
                      .printf "set new default destination address\n", .unlock],
            returned := true } := by
  have hs := split_cmd_word_arg "dst".toList arg (by decide)
  have hcat : "dst ".toList ++ arg = "dst".toList ++ Char.ofNat 32 :: arg := rfl
  rw [cstr_eq_self arg hnul] at hs
  unfold parse_cmd
  rw [hcat, hs]
  have hb : parse_body E "dst".toList (some arg)
      = if (strtoll arg).2 ≠ 0 then ([ .printf "failed to convert address\n" ], true)
        else ([ .call (.xb_set_default_dst (dst_addr arg)),
                .printf "set new default destination address\n" ], true) := rfl
  simp only [hb]
  by_cases hc : (strtoll arg).2 ≠ 0
  · rw [if_pos hc, if_pos hc]; rfl
  · rw [if_neg hc, if_neg hc]; rfl

/-! ## The engine calls of `parse_cmd` -/

theorem calls_append (a b : List Event) : calls (a ++ b) = calls a ++ calls b := by
  induction a with
  | nil => rfl
  | cons e a ih => cases e <;> simp [calls, ih]

theorem calls_parse_cmd (E : Engine) (cmd : List Char) :
    calls (parse_cmd E cmd).trace = calls (parse_body E (cmd_word cmd) (cmd_arg cmd)).1 := by
  unfold parse_cmd cmd_word cmd_arg
  simp only [calls]
  split_ifs <;> simp [calls, calls_append]

theorem calls_report (ret : xb_ret_t) (a b : String) (es : List Event) :
    calls (report ret a b :: es) = calls es := by
  unfold report
  split_ifs <;> rfl

theorem calls_vtx_branch (name : String) (op : xb_dio_t → xb_dio_output_t → Call)
    (ret : xb_dio_t → xb_dio_output_t → xb_ret_t) (rest : Option (List Char)) :
    calls (vtx_branch name op ret rest).1
      = if rest = some "on".toList then [op .XB_DIO12 .XB_DIO_HIGH]
        else if rest = some "off".toList then [op .XB_DIO12 .XB_DIO_LOW]
        else [] := by
  cases rest with
  | none =>
    rw [if_neg (by simp), if_neg (by simp)]
    rfl
  | some r =>
    unfold vtx_branch
    by_cases h1 : r = "on".toList
    · rw [if_pos (congrArg some h1)]
      simp only [if_pos h1, calls, calls_report]
    · have h1s : ¬ some r = some "on".toList := fun e => h1 (Option.some.inj e)
      by_cases h2 : r = "off".toList
      · rw [if_neg h1s, if_pos (congrArg some h2)]
        simp only [if_neg h1, if_pos h2, calls, calls_report]
      · have h2s : ¬ some r = some "off".toList := fun e => h2 (Option.some.inj e)
        rw [if_neg h1s, if_neg h2s]
        simp only [if_neg h1, if_neg h2, calls]

/-- The engine calls of `parse_cmd`, by command word. -/
theorem calls_parse_body (E : Engine) (w : List Char) (r : Option (List Char)) :
    calls (parse_body E w r).1 =
      if w = "help".toList then []
      else if w = "init".toList then [.xb_init]
      else if w = "send".toList then
        (match r with
         | some d => [.xb_send d (strlen d)]
         | none => [])
      else if w = "dst".toList then
        (match r with
         | some d => if (strtoll d).2 ≠ 0 then [] else [.xb_set_default_dst (dst_addr d)]
         | none => [])
      else if w = "net_id".toList then
        (match r with
         | some d => if (strtol d).2 ≠ 0 then [] else [.xb_set_net_id (net_id_value d)]
         | none => [])
      else if w = "remote_vtx".toList then
        (if r = some "on".toList then [.xb_cmd_remote_dio .XB_DIO12 .XB_DIO_HIGH]
         else if r = some "off".toList then [.xb_cmd_remote_dio .XB_DIO12 .XB_DIO_LOW]
         else [])
      else if w = "local_vtx".toList then
        (if r = some "on".toList then [.xb_cmd_dio .XB_DIO12 .XB_DIO_HIGH]
         else if r = some "off".toList then [.xb_cmd_dio .XB_DIO12 .XB_DIO_LOW]
         else [])
      else [] := by
  unfold parse_body
  by_cases h1 : w = "help".toList
  · rw [if_pos h1, if_pos h1]; rfl
  rw [if_neg h1, if_neg h1]
  by_cases h2 : w = "init".toList
  · rw [if_pos h2, if_pos h2]
    simp only [calls, calls_report]
  rw [if_neg h2, if_neg h2]
  by_cases h3 : w = "send".toList
  · rw [if_pos h3, if_pos h3]
    cases r <;> simp only [calls, calls_report]
  rw [if_neg h3, if_neg h3]
  by_cases h4 : w = "dst".toList
  · rw [if_pos h4, if_pos h4]
    cases r with
    | none => rfl
    | some d =>
      simp only
      by_cases hc : (strtoll d).2 ≠ 0
      · rw [if_pos hc, if_pos hc]; rfl
      · rw [if_neg hc, if_neg hc]; rfl
  rw [if_neg h4, if_neg h4]
  by_cases h5 : w = "net_id".toList
  · rw [if_pos h5, if_pos h5]
    cases r with
    | none => rfl
    | some d =>
      simp only
      by_cases hc : (strtol d).2 ≠ 0
      · rw [if_pos hc, if_pos hc]; rfl
      · rw [if_neg hc, if_neg hc]; rfl
  rw [if_neg h5, if_neg h5]
  by_cases h6 : w = "remote_vtx".toList
  · rw [if_pos h6, if_pos h6]
    exact calls_vtx_branch _ _ _ _
  rw [if_neg h6, if_neg h6]
  by_cases h7 : w = "local_vtx".toList
  · rw [if_pos h7, if_pos h7]
    exact calls_vtx_branch _ _ _ _
  rw [if_neg h7, if_neg h7]
  rfl

/-! ## The mutex in `parse_cmd` -/

theorem lockShape_bracket (text : String) (c : Call) (ret : xb_ret_t) (a b : String)
    (hc : held_for c = 0) :
    LockShape [.printf text, .unlock, .call c, .lock, report ret a b] := by
  unfold LockShape report
  split_ifs <;> simp [held_after, held_at_calls, calls, hc]

theorem lockShape_vtx (name : String) (op : xb_dio_t → xb_dio_output_t → Call)
    (ret : xb_dio_t → xb_dio_output_t → xb_ret_t) (rest : Option (List Char))
    (hop : ∀ d o, held_for (op d o) = 0) :
    LockShape (vtx_branch name op ret rest).1 := by
  cases rest with
  | none => simp [vtx_branch, LockShape, held_after, held_at_calls, calls]
  | some r =>
    unfold vtx_branch
    by_cases h1 : r = "on".toList
    · simp only [if_pos h1]
      exact lockShape_bracket _ _ _ _ _ (hop _ _)
    · by_cases h2 : r = "off".toList
      · simp only [if_neg h1, if_pos h2]
        exact lockShape_bracket _ _ _ _ _ (hop _ _)
      · simp only [if_neg h1, if_neg h2]
        simp [LockShape, held_after, held_at_calls, calls]

theorem lockShape_parse_body (E : Engine) (w : List Char) (r : Option (List Char)) :
    LockShape (parse_body E w r).1 := by
  unfold parse_body
  by_cases h1 : w = "help".toList
  · rw [if_pos h1]
    simp [LockShape, help_text, held_after, held_at_calls, calls]
  rw [if_neg h1]
  by_cases h2 : w = "init".toList
  · rw [if_pos h2]
    exact lockShape_bracket _ _ _ _ _ rfl
  rw [if_neg h2]
  by_cases h3 : w = "send".toList
  · rw [if_pos h3]
    cases r with
    | none => simp [LockShape, held_after, held_at_calls, calls]
    | some d => exact lockShape_bracket _ _ _ _ _ rfl
  rw [if_neg h3]
  by_cases h4 : w = "dst".toList
  · rw [if_pos h4]
    cases r with
    | none => simp [LockShape, held_after, held_at_calls, calls]
    | some d =>
      simp only
      split_ifs <;> simp [LockShape, held_after, held_at_calls, calls, held_for]
  rw [if_neg h4]
  by_cases h5 : w = "net_id".toList
  · rw [if_pos h5]
    cases r with
    | none => simp [LockShape, held_after, held_at_calls, calls]
    | some d =>
      simp only
      split_ifs <;> simp [LockShape, held_after, held_at_calls, calls, held_for]
  rw [if_neg h5]
  by_cases h6 : w = "remote_vtx".toList
  · rw [if_pos h6]
    exact lockShape_vtx _ _ _ _ (fun _ _ => rfl)
  rw [if_neg h6]
  by_cases h7 : w = "local_vtx".toList
  · rw [if_pos h7]
    exact lockShape_vtx _ _ _ _ (fun _ _ => rfl)
  rw [if_neg h7]
  simp [LockShape, held_after, held_at_calls, calls]

theorem held_after_append (a b : List Event) (h : Nat) :
    held_after h (a ++ b) = held_after (held_after h a) b := by
  induction a generalizing h with
  | nil => rfl
  | cons e a ih => cases e <;> simp [held_after, ih]

theorem held_at_calls_append (a b : List Event) (h : Nat) :
    held_at_calls h (a ++ b) = held_at_calls h a ++ held_at_calls (held_after h a) b := by
  induction a generalizing h with
  | nil => rfl
  | cons e a ih => cases e <;> simp [held_at_calls, held_after, ih]

/-- The mutex on every run of `parse_cmd`: a run that reaches the end has released
`stdio_lock` as often as it took it, and each engine call is made with the lock count
`held_for` gives: 0 for `xb_init`, `xb_send`, `xb_cmd_remote_dio` and `xb_cmd_dio`, 1 for
`xb_set_default_dst` and `xb_set_net_id`. -/
theorem parse_cmd_lock_discipline (E : Engine) (cmd : List Char) :
    ((parse_cmd E cmd).returned = true → held_after 0 (parse_cmd E cmd).trace = 0)
    ∧ held_at_calls 0 (parse_cmd E cmd).trace
        = (calls (parse_cmd E cmd).trace).map (fun c => (c, held_for c)) := by
  obtain ⟨hafter, hcalls⟩ := lockShape_parse_body E (cmd_word cmd) (cmd_arg cmd)
  have hc := calls_parse_cmd E cmd
  unfold cmd_word cmd_arg at hafter hcalls hc
  rw [hc]
  have htrace : (parse_cmd E cmd).trace
      = Event.lock :: ((parse_body E (split_cmd cmd).first (split_cmd cmd).rest).1
          ++ (if (parse_body E (split_cmd cmd).first (split_cmd cmd).rest).2 = true
              then [Event.unlock] else [])) := rfl
  have e1 : ∀ es, held_after 0 (Event.lock :: es) = held_after 1 es := fun _ => rfl
  have e2 : ∀ es, held_at_calls 0 (Event.lock :: es) = held_at_calls 1 es := fun _ => rfl
  rw [htrace, e1, e2, held_after_append, held_at_calls_append, hafter, hcalls]
  constructor
  · intro hret
    have hret2 : (parse_body E (split_cmd cmd).first (split_cmd cmd).rest).2 = true := hret
    rw [if_pos hret2]
    rfl
  · split_ifs <;> simp [held_at_calls]

/-! ## The loop of `tx_thread` -/

theorem store_eq_some (buf : List Char) (i : Nat) (c : Char) (h : i < buf.length) :
    store buf i c = some (buf.set i c) := by
  unfold store
  rw [if_pos h]

theorem tx_step_inv (st : TxState) (c : Char) (hi : st.tx_i ≤ 1023)
    (hl : st.tx_buff.length = 1024) :
    ∃ st1 ev, tx_step st c = some (st1, ev) ∧ st1.tx_i ≤ 1023 ∧ st1.tx_buff.length = 1024
      ∧ (c.toNat = 10 → st1.tx_i = 0) := by
  have hlt : st.tx_i < st.tx_buff.length := by omega
  unfold tx_step
  by_cases hc : c.toNat = 10
  · rw [if_pos hc, store_eq_some _ _ _ hlt]
    by_cases h0 : st.tx_i > 0
    · simp only [if_pos h0]
      exact ⟨_, _, rfl, by simp, by simp [split_cmd_buf_length, hl], fun _ => rfl⟩
    · simp only [if_neg h0]
      exact ⟨_, _, rfl, by simp, by simp [hl], fun _ => rfl⟩
  · rw [if_neg hc, store_eq_some _ _ _ hlt]
    by_cases h1 : st.tx_i + 1 > 1023
    · simp only [if_pos h1]
      exact ⟨_, _, rfl, by simp, by simp [hl], fun h => absurd h hc⟩
    · simp only [if_neg h1]
      exact ⟨_, _, rfl, by simp; omega, by simp [hl], fun h => absurd h hc⟩

theorem tx_run_inv (input : List Char) :
    ∀ st : TxState, st.tx_i ≤ 1023 → st.tx_buff.length = 1024 →
      ∃ st1 ev, tx_run st input = some (st1, ev) ∧ st1.tx_i ≤ 1023
        ∧ st1.tx_buff.length = 1024 := by
  induction input with
  | nil => intro st hi hl; exact ⟨st, [], rfl, hi, hl⟩
  | cons c cs ih =>
    intro st hi hl
    obtain ⟨st1, ev1, h1, hi1, hl1, _⟩ := tx_step_inv st c hi hl
    obtain ⟨st2, ev2, h2, hi2, hl2⟩ := ih st1 hi1 hl1
    exact ⟨st2, ev1 ++ ev2, by simp [tx_run, h1, h2], hi2, hl2⟩

theorem tx_run_append (a b : List Char) :
    ∀ (st st1 st2 : TxState) (ev1 ev2 : List TxEvent),
      tx_run st a = some (st1, ev1) → tx_run st1 b = some (st2, ev2) →
      tx_run st (a ++ b) = some (st2, ev1 ++ ev2) := by
  induction a with
  | nil =>
    intro st st1 st2 ev1 ev2 h1 h2
    simp only [tx_run, Option.some.injEq, Prod.mk.injEq] at h1
    obtain ⟨rfl, rfl⟩ := h1
    simpa using h2
  | cons c cs ih =>
    intro st st1 st2 ev1 ev2 h1 h2
    simp only [tx_run, List.cons_append] at h1 ⊢
    cases hs : tx_step st c with
    | none => simp [hs] at h1
    | some p =>
      obtain ⟨sa, ea⟩ := p
      simp only [hs] at h1 ⊢
      cases hr : tx_run sa cs with
      | none => simp [hr] at h1
      | some q =>
        obtain ⟨sb, eb⟩ := q
        simp only [hr, Option.some.injEq, Prod.mk.injEq] at h1
        obtain ⟨rfl, rfl⟩ := h1
        have hi := ih sa sb st2 eb ev2 hr h2
        show (match tx_run sa (cs ++ b) with
          | none => none
          | some (st2, ev2) => some (st2, ea ++ ev2)) = some (st2, ea ++ eb ++ ev2)
        rw [hi]
        simp

theorem take_succ_set (buf : List Char) (i : Nat) (c : Char) (h : i < buf.length) :
    (buf.set i c).take (i + 1) = buf.take i ++ [c] := by
  rw [List.set_eq_take_cons_drop c h]
  have hlen : (List.take i buf).length = i := by
    rw [List.length_take]; omega
  rw [List.take_append_eq_append_take, hlen]
  have h1 : i + 1 - i = 1 := by omega
  rw [h1, List.take_of_length_le (by omega)]
  simp

/-- Characters other than the newline, stored from `tx_i` on while the buffer has room:
the state after them. -/
theorem tx_run_chars (line : List Char) :
    ∀ st : TxState, (∀ c ∈ line, c.toNat ≠ 10) → st.tx_i + line.length ≤ 1023 →
      st.tx_buff.length = 1024 →
      tx_run st line
        = some ({ tx_buff := st.tx_buff.take st.tx_i ++ line
                    ++ st.tx_buff.drop (st.tx_i + line.length),
                  tx_i := st.tx_i + line.length }, []) := by
  induction line with
  | nil =>
    intro st _ _ _
    simp [tx_run]
  | cons c l ih =>
    intro st hnl hroom hl
    have hc : c.toNat ≠ 10 := hnl c (List.mem_cons_self c l)
    have hlen : l.length + 1 = (c :: l).length := rfl
    have hlt : st.tx_i < st.tx_buff.length := by
      rw [← hlen] at hroom; omega
    have h1 : ¬ st.tx_i + 1 > 1023 := by
      rw [← hlen] at hroom; omega
    have hstep : tx_step st c
        = some ({ tx_buff := st.tx_buff.set st.tx_i c, tx_i := st.tx_i + 1 }, []) := by
      unfold tx_step
      rw [if_neg hc, store_eq_some _ _ _ hlt]
      simp only [if_neg h1]
    have hih := ih { tx_buff := st.tx_buff.set st.tx_i c, tx_i := st.tx_i + 1 }
      (fun d hd => hnl d (List.mem_cons_of_mem c hd))
      (by rw [← hlen] at hroom; simp only; omega) (by simp [hl])
    simp only [tx_run, hstep, hih]
    simp only [take_succ_set _ _ _ hlt, List.nil_append, List.length_cons,
      Option.some.injEq, Prod.mk.injEq, and_true, TxState.mk.injEq]
    constructor
    · rw [List.drop_set_of_lt c st.tx_buff (by omega)]
      have e : st.tx_i + 1 + l.length = st.tx_i + (l.length + 1) := by omega
      rw [e]
      simp
    · omega

theorem set_after_line (line buf : List Char) (c : Char) (h : line.length < buf.length) :
    (line ++ buf.drop line.length).set line.length c
      = line ++ c :: buf.drop (line.length + 1) := by
  rw [List.set_append_right _ _ (Nat.le_refl _), Nat.sub_self,
    List.drop_eq_getElem_cons h]
  rfl

theorem cstr_append_nul (line rest : List Char) : cstr (line ++ NUL :: rest) = cstr line := by
  unfold cstr
  induction line with
  | nil => simp [List.takeWhile]
  | cons c l ih =>
    simp only [List.cons_append, List.takeWhile]
    cases c != NUL
    · rfl
    · exact congrArg (List.cons c) ih

theorem tx_run_single (st st1 : TxState) (c : Char) (ev : List TxEvent)
    (h : tx_step st c = some (st1, ev)) : tx_run st [c] = some (st1, ev) := by
  simp [tx_run, h]

/-- One line typed from a state with `tx_i = 0`: the characters of the line, then the
newline. -/
theorem tx_run_line (line : List Char) (st : TxState) (h0 : st.tx_i = 0)
    (hl : st.tx_buff.length = 1024) (hnl : ∀ c ∈ line, c.toNat ≠ 10)
    (hlen : line.length < 1024) :
    ∃ st1, tx_run st (line ++ [Char.ofNat 10])
      = some (st1,
          (if line = [] then []
           else [TxEvent.parse_cmd (line ++ NUL :: st.tx_buff.drop (line.length + 1))])
          ++ [.lock, .printf "\n> ", .unlock]) := by
  have hchars := tx_run_chars line st hnl (by omega) hl
  rw [h0] at hchars
  simp only [List.take_zero, List.nil_append, Nat.zero_add] at hchars
  have hlt : line.length < (line ++ st.tx_buff.drop line.length).length := by
    simp only [List.length_append, List.length_drop]; omega
  have hlt2 : line.length < st.tx_buff.length := by omega
  have hten : (Char.ofNat 10).toNat = 10 := by decide
  by_cases he : line = []
  · have hstep : tx_step { tx_buff := line ++ st.tx_buff.drop line.length, tx_i := line.length }
        (Char.ofNat 10)
        = some ({ tx_buff := line ++ NUL :: st.tx_buff.drop (line.length + 1), tx_i := 0 },
            [.lock, .printf "\n> ", .unlock]) := by
      have hz : ¬ line.length > 0 := by simp [he]
      unfold tx_step
      rw [if_pos hten, store_eq_some _ _ _ hlt]
      simp only [if_neg hz, set_after_line line st.tx_buff NUL hlt2]
    have h := tx_run_append _ _ st _ _ _ _ hchars (tx_run_single _ _ _ _ hstep)
    rw [if_pos he]
    exact ⟨_, h⟩
  · have hpos : line.length > 0 := List.length_pos.mpr he
    have hstep : tx_step { tx_buff := line ++ st.tx_buff.drop line.length, tx_i := line.length }
        (Char.ofNat 10)
        = some ({ tx_buff := (split_cmd (line ++ NUL :: st.tx_buff.drop (line.length + 1))).buf,
                  tx_i := 0 },
            [.parse_cmd (line ++ NUL :: st.tx_buff.drop (line.length + 1)),
             .lock, .printf "\n> ", .unlock]) := by
      unfold tx_step
      rw [if_pos hten, store_eq_some _ _ _ hlt]
      simp only [if_pos hpos, set_after_line line st.tx_buff NUL hlt2]
    have h := tx_run_append _ _ st _ _ _ _ hchars (tx_run_single _ _ _ _ hstep)
    rw [if_neg he]
    exact ⟨_, h⟩

theorem tx_init_length : tx_init.tx_buff.length = 1024 := by
  unfold tx_init
  exact List.length_replicate _ _

theorem tx_init_index : tx_init.tx_i ≤ 1023 :=
  Nat.zero_le _

/-- The state at the start of a line: after no input, or after input that ends with a
newline, `tx_i` is 0. -/
theorem tx_run_line_start (pre : List Char)
    (hpre : pre = [] ∨ pre.getLast? = some (Char.ofNat 10)) :
    ∃ st ev, tx_run tx_init pre = some (st, ev) ∧ st.tx_i = 0
      ∧ st.tx_buff.length = 1024 := by
  have hinit : tx_init.tx_buff.length = 1024 := tx_init_length
  rcases hpre with rfl | hlast
  · exact ⟨tx_init, [], rfl, rfl, hinit⟩
  · obtain ⟨ys, rfl⟩ := List.getLast?_eq_some_iff.mp hlast
    obtain ⟨sa, ea, ha, hia, hla⟩ := tx_run_inv ys tx_init tx_init_index hinit
    obtain ⟨sb, eb, hb, _, hlb, hzero⟩ := tx_step_inv sa (Char.ofNat 10) hia hla
    exact ⟨sb, ea ++ eb, tx_run_append _ _ _ _ _ _ _ ha (tx_run_single _ _ _ _ hb),
      hzero (by decide), hlb⟩

/-! ## The claims -/

/-- C1 (fails on the code): for every well-formed hexadecimal numeral (a non-empty
string of hexadecimal digits) `dst <hex>` and `net_id <hex>` take the branch that
prints "failed to convert address"; neither engine operation is called and no
success message is printed. -/
theorem C1_wellformed_hex_reported_as_failure (E : Engine) (arg : List Char)
    (hne : arg ≠ []) (hhex : ∀ c ∈ arg, (hexDigit c).isSome = true) :
    parse_cmd E ("dst ".toList ++ arg)
        = { trace := [.lock, .printf "failed to convert address\n", .unlock],
            returned := true }
    ∧ parse_cmd E ("net_id ".toList ++ arg)
        = { trace := [.lock, .printf "failed to convert address\n", .unlock],
            returned := true } := by
  have hnul := hex_numeral_no_nul arg hhex
  have hconv : (scan16 arg).converted = true := by
    rw [scan16_hex_numeral arg hne hhex]
  have hd : (strtoll arg).2 ≠ 0 := scan16_consumed_ne_zero arg hconv
  have hn : (strtol arg).2 ≠ 0 := scan16_consumed_ne_zero arg hconv
  constructor
  · rw [parse_cmd_dst_arg E arg hnul, if_pos hd]
  · rw [parse_cmd_net_id_arg E arg hnul, if_pos hn]

/-- C1 at `dst 0013A20012345678` and at `net_id 1234`. -/
theorem C1_wellformed_hex_reported_as_failure_witness :
    parse_cmd engine_ok "dst 0013A20012345678".toList
        = { trace := [.lock, .printf "failed to convert address\n", .unlock],
            returned := true }
    ∧ parse_cmd engine_ok "net_id 1234".toList
        = { trace := [.lock, .printf "failed to convert address\n", .unlock],
            returned := true } :=
  ⟨(C1_wellformed_hex_reported_as_failure engine_ok "0013A20012345678".toList
      (by decide) (by decide)).1,
   (C1_wellformed_hex_reported_as_failure engine_ok "1234".toList
      (by decide) (by decide)).2⟩

/-- C2 (fails on the code): when the argument of `dst` or `net_id` is one that
`strtoll` / `strtol` cannot convert (no hexadecimal digit where the numeral should
start, as in "zzz"), the engine is called with 0 and the success message is printed;
and `dst`, `net_id`, `remote_vtx`, `local_vtx` without an argument hand a null pointer
to the C library after taking the lock and reach no error message. -/
theorem C2_malformed_argument_reaches_engine (E : Engine) (arg : List Char)
    (hnul : NUL ∉ arg) (hmal : (scan16 arg).converted = false) :
    parse_cmd E ("dst ".toList ++ arg)
        = { trace := [.lock, .call (.xb_set_default_dst 0),
                      .printf "set new default destination address\n", .unlock],
            returned := true }
    ∧ parse_cmd E ("net_id ".toList ++ arg)
        = { trace := [.lock, .call (.xb_set_net_id 0), .printf "set new network id\n",
                      .unlock],
            returned := true }
    ∧ parse_cmd E "dst".toList = { trace := [.lock], returned := false }
    ∧ parse_cmd E "net_id".toList = { trace := [.lock], returned := false }
    ∧ parse_cmd E "remote_vtx".toList = { trace := [.lock], returned := false }
    ∧ parse_cmd E "local_vtx".toList = { trace := [.lock], returned := false } := by
  obtain ⟨hcons, hval⟩ := scan16_not_converted arg hmal
  have hd : ¬ (strtoll arg).2 ≠ 0 := fun h => h hcons
  have hn : ¬ (strtol arg).2 ≠ 0 := fun h => h hcons
  have hda : dst_addr arg = 0 := by
    unfold dst_addr strtoll
    rw [hval]
    rfl
  have hna : net_id_value arg = 0 := by
    unfold net_id_value strtol
    rw [hval]
    rfl
  refine ⟨?_, ?_, rfl, rfl, rfl, rfl⟩
  · rw [parse_cmd_dst_arg E arg hnul, if_neg hd, hda]
  · rw [parse_cmd_net_id_arg E arg hnul, if_neg hn, hna]

/-- C2 at `dst zzz` and at `net_id zzz`. -/
theorem C2_malformed_argument_reaches_engine_witness :
    parse_cmd engine_ok "dst zzz".toList
        = { trace := [.lock, .call (.xb_set_default_dst 0),
                      .printf "set new default destination address\n", .unlock],
            returned := true }
    ∧ calls (parse_cmd engine_ok "net_id zzz".toList).trace = [.xb_set_net_id 0] :=
  ⟨(C2_malformed_argument_reaches_engine engine_ok "zzz".toList (by decide) (by decide)).1,
   congrArg (fun o => calls o.trace)
     (C2_malformed_argument_reaches_engine engine_ok "zzz".toList
        (by decide) (by decide)).2.1⟩

/-- C3: a `net_id` argument that `strtol` converts to a value outside 0..0x7FFF is
rejected: `parse_cmd` prints "failed to convert address", returns, calls no engine
operation (so `xb_set_net_id` gets no narrowed id) and does not print
"set new network id". -/
theorem C3_net_id_out_of_range_rejected (E : Engine) (arg : List Char)
    (hnul : NUL ∉ arg) (hconv : (scan16 arg).converted = true)
    (_hrange : (scan16 arg).value < 0 ∨ 0x7FFF < (scan16 arg).value) :
    parse_cmd E ("net_id ".toList ++ arg)
        = { trace := [.lock, .printf "failed to convert address\n", .unlock],
            returned := true }
    ∧ calls (parse_cmd E ("net_id ".toList ++ arg)).trace = []
    ∧ Event.printf "set new network id\n" ∉ (parse_cmd E ("net_id ".toList ++ arg)).trace := by
  have hc : (strtol arg).2 ≠ 0 := scan16_consumed_ne_zero arg hconv
  have h := parse_cmd_net_id_arg E arg hnul
  rw [if_pos hc] at h
  rw [h]
  refine ⟨rfl, rfl, by decide⟩

/-- C3 at `net_id 8000` and at `net_id 10005`. -/
theorem C3_net_id_out_of_range_rejected_witness :
    (parse_cmd engine_ok "net_id 8000".toList).trace
        = [.lock, .printf "failed to convert address\n", .unlock]
    ∧ calls (parse_cmd engine_ok "net_id 10005".toList).trace = [] :=
  ⟨congrArg Outcome.trace
     (C3_net_id_out_of_range_rejected engine_ok "8000".toList
        (by decide) (by decide) (by decide)).1,
   (C3_net_id_out_of_range_rejected engine_ok "10005".toList
        (by decide) (by decide) (by decide)).2.1⟩

/-- C4: for every input line `parse_cmd` calls at most one engine operation, and the
operation is the one of the command word: `xb_init` for `init`, `xb_send` for `send`,
`xb_set_default_dst` for `dst`, `xb_set_net_id` for `net_id`,
`xb_cmd_remote_dio(XB_DIO12, level)` for `remote_vtx` and `xb_cmd_dio(XB_DIO12, level)`
for `local_vtx`, with level high for "on" and low for "off"; `init` and the four
`vtx` forms do call their operation, and `help` and every other word call none. -/
theorem C4_command_word_selects_engine_operation (E : Engine) (cmd : List Char) :
    (calls (parse_cmd E cmd).trace).length ≤ 1
    ∧ (∀ c ∈ calls (parse_cmd E cmd).trace,
          (cmd_word cmd = "init".toList ∧ c = .xb_init)
        ∨ (cmd_word cmd = "send".toList
            ∧ ∃ d, cmd_arg cmd = some d ∧ c = .xb_send d (strlen d))
        ∨ (cmd_word cmd = "dst".toList ∧ ∃ a, c = .xb_set_default_dst a)
        ∨ (cmd_word cmd = "net_id".toList ∧ ∃ i, c = .xb_set_net_id i)
        ∨ (cmd_word cmd = "remote_vtx".toList ∧ cmd_arg cmd = some "on".toList
            ∧ c = .xb_cmd_remote_dio .XB_DIO12 .XB_DIO_HIGH)
        ∨ (cmd_word cmd = "remote_vtx".toList ∧ cmd_arg cmd = some "off".toList
            ∧ c = .xb_cmd_remote_dio .XB_DIO12 .XB_DIO_LOW)
        ∨ (cmd_word cmd = "local_vtx".toList ∧ cmd_arg cmd = some "on".toList
            ∧ c = .xb_cmd_dio .XB_DIO12 .XB_DIO_HIGH)
        ∨ (cmd_word cmd = "local_vtx".toList ∧ cmd_arg cmd = some "off".toList
            ∧ c = .xb_cmd_dio .XB_DIO12 .XB_DIO_LOW))
    ∧ (cmd_word cmd = "init".toList → calls (parse_cmd E cmd).trace = [.xb_init])
    ∧ (cmd_word cmd = "remote_vtx".toList → cmd_arg cmd = some "on".toList →
        calls (parse_cmd E cmd).trace = [.xb_cmd_remote_dio .XB_DIO12 .XB_DIO_HIGH])
    ∧ (cmd_word cmd = "remote_vtx".toList → cmd_arg cmd = some "off".toList →
        calls (parse_cmd E cmd).trace = [.xb_cmd_remote_dio .XB_DIO12 .XB_DIO_LOW])
    ∧ (cmd_word cmd = "local_vtx".toList → cmd_arg cmd = some "on".toList →
        calls (parse_cmd E cmd).trace = [.xb_cmd_dio .XB_DIO12 .XB_DIO_HIGH])
    ∧ (cmd_word cmd = "local_vtx".toList → cmd_arg cmd = some "off".toList →
        calls (parse_cmd E cmd).trace = [.xb_cmd_dio .XB_DIO12 .XB_DIO_LOW])
    ∧ (cmd_word cmd ∉ ["init".toList, "send".toList, "dst".toList, "net_id".toList,
          "remote_vtx".toList, "local_vtx".toList] →
        calls (parse_cmd E cmd).trace = []) := by
  rw [calls_parse_cmd, calls_parse_body]
  generalize cmd_word cmd = w
  generalize cmd_arg cmd = r
  by_cases h1 : w = "help".toList
  · subst h1
    rw [if_pos rfl]
    refine ⟨by simp, by simp, ?_, ?_, ?_, ?_, ?_, by simp⟩ <;>
      exact fun h => absurd h (by decide)
  rw [if_neg h1]
  by_cases h2 : w = "init".toList
  · subst h2
    rw [if_pos rfl]
    refine ⟨by simp, ?_, fun _ => rfl, ?_, ?_, ?_, ?_, ?_⟩
    · intro c hc
      exact Or.inl ⟨rfl, by simpa using hc⟩
    all_goals exact fun h => absurd h (by decide)
  rw [if_neg h2]
  by_cases h3 : w = "send".toList
  · subst h3
    rw [if_pos rfl]
    refine ⟨?_, ?_, ?_, ?_, ?_, ?_, ?_, ?_⟩
    · cases r <;> simp
    · intro c hc
      cases r with
      | none => simp at hc
      | some d => exact Or.inr (Or.inl ⟨rfl, d, rfl, by simpa using hc⟩)
    all_goals exact fun h => absurd h (by decide)
  rw [if_neg h3]
  by_cases h4 : w = "dst".toList
  · subst h4
    rw [if_pos rfl]
    refine ⟨?_, ?_, ?_, ?_, ?_, ?_, ?_, ?_⟩
    · cases r with
      | none => simp
      | some d => simp only; split_ifs <;> simp
    · intro c hc
      cases r with
      | none => simp at hc
      | some d =>
        simp only at hc
        split_ifs at hc
        · simp at hc
        · exact Or.inr (Or.inr (Or.inl ⟨rfl, _, by simpa using hc⟩))
    all_goals exact fun h => absurd h (by decide)
  rw [if_neg h4]
  by_cases h5 : w = "net_id".toList
  · subst h5
    rw [if_pos rfl]
    refine ⟨?_, ?_, ?_, ?_, ?_, ?_, ?_, ?_⟩
    · cases r with
      | none => simp
      | some d => simp only; split_ifs <;> simp
    · intro c hc
      cases r with
      | none => simp at hc
      | some d =>
        simp only at hc
        split_ifs at hc
        · simp at hc
        · exact Or.inr (Or.inr (Or.inr (Or.inl ⟨rfl, _, by simpa using hc⟩)))
    all_goals exact fun h => absurd h (by decide)
  rw [if_neg h5]
  by_cases h6 : w = "remote_vtx".toList
  · subst h6
    rw [if_pos rfl]
    by_cases ha : r = some "on".toList
    · subst ha
      rw [if_pos rfl]
      refine ⟨by simp, ?_, ?_, fun _ _ => rfl, ?_, ?_, ?_, ?_⟩
      · intro c hc
        exact Or.inr (Or.inr (Or.inr (Or.inr (Or.inl ⟨rfl, rfl, by simpa using hc⟩))))
      · exact fun h => absurd h (by decide)
      · exact fun _ h => absurd h (by decide)
      · exact fun h => absurd h (by decide)
      · exact fun h => absurd h (by decide)
      · exact fun h => absurd h (by decide)
    rw [if_neg ha]
    by_cases hb : r = some "off".toList
    · subst hb
      rw [if_pos rfl]
      refine ⟨by simp, ?_, ?_, ?_, fun _ _ => rfl, ?_, ?_, ?_⟩
      · intro c hc
        exact Or.inr (Or.inr (Or.inr (Or.inr (Or.inr (Or.inl ⟨rfl, rfl, by simpa using hc⟩)))))
      · exact fun h => absurd h (by decide)
      · exact fun _ h => absurd h (by decide)
      · exact fun h => absurd h (by decide)
      · exact fun h => absurd h (by decide)
      · exact fun h => absurd h (by decide)
    rw [if_neg hb]
    refine ⟨by simp, by simp, ?_, fun _ h => absurd h ha, fun _ h => absurd h hb, ?_, ?_, ?_⟩
    all_goals exact fun h => absurd h (by decide)
  rw [if_neg h6]
  by_cases h7 : w = "local_vtx".toList
  · subst h7
    rw [if_pos rfl]
    by_cases ha : r = some "on".toList
    · subst ha
      rw [if_pos rfl]
      refine ⟨by simp, ?_, ?_, ?_, ?_, fun _ _ => rfl, ?_, ?_⟩
      · intro c hc
        exact Or.inr (Or.inr (Or.inr (Or.inr (Or.inr (Or.inr (Or.inl
          ⟨rfl, rfl, by simpa using hc⟩))))))
      · exact fun h => absurd h (by decide)
      · exact fun h => absurd h (by decide)
      · exact fun h => absurd h (by decide)
      · exact fun _ h => absurd h (by decide)
      · exact fun h => absurd h (by decide)
    rw [if_neg ha]
    by_cases hb : r = some "off".toList
    · subst hb
      rw [if_pos rfl]
      refine ⟨by simp, ?_, ?_, ?_, ?_, ?_, fun _ _ => rfl, ?_⟩
      · intro c hc
        exact Or.inr (Or.inr (Or.inr (Or.inr (Or.inr (Or.inr (Or.inr
          ⟨rfl, rfl, by simpa using hc⟩))))))
      · exact fun h => absurd h (by decide)
      · exact fun h => absurd h (by decide)
      · exact fun h => absurd h (by decide)
      · exact fun _ h => absurd h (by decide)
      · exact fun h => absurd h (by decide)
    rw [if_neg hb]
    refine ⟨by simp, by simp, ?_, ?_, ?_, fun _ h => absurd h ha, fun _ h => absurd h hb, ?_⟩
    all_goals exact fun h => absurd h (by decide)
  rw [if_neg h7]
  refine ⟨by simp, by simp, fun h => absurd h h2, fun h => absurd h h6, fun h => absurd h h6,
    fun h => absurd h h7, fun h => absurd h h7, fun _ => rfl⟩

/-- C5 (fails on the code): the `net_id` branch drops the result of `xb_set_net_id`.
Whatever the engine returns, `XB_ERR` included, the operator reads
"set new network id" and no failure message; the `send` branch on a failing engine
does print its failure message. -/
theorem C5_net_id_result_discarded (E : Engine) :
    parse_cmd E "net_id zzz".toList
        = { trace := [.lock, .call (.xb_set_net_id 0), .printf "set new network id\n",
                      .unlock],
            returned := true }
    ∧ engine_err.xb_set_net_id 0 = .XB_ERR
    ∧ parse_cmd engine_err "send x".toList
        = { trace := [.lock, .printf "sending: x\n", .unlock, .call (.xb_send "x".toList 1),
                      .lock, .printf "send failure!\n", .unlock],
            returned := true } :=
  ⟨rfl, rfl, rfl⟩

/-- C6: `send <text>` calls `xb_send` exactly once, with the bytes of `<text>`
(everything after the first space, later spaces included) and their number as length. -/
theorem C6_send_passes_text_after_first_space (E : Engine) (text : List Char)
    (hnul : NUL ∉ text) :
    calls (parse_cmd E ("send ".toList ++ text)).trace = [.xb_send text text.length] := by
  have hs := split_cmd_word_arg "send".toList text (by decide)
  have hcat : "send ".toList ++ text = "send".toList ++ Char.ofNat 32 :: text := rfl
  rw [cstr_eq_self text hnul] at hs
  rw [calls_parse_cmd, calls_parse_body]
  unfold cmd_word cmd_arg
  rw [hcat, hs]
  simp only
  rw [if_neg (by decide), if_neg (by decide), if_pos trivial, strlen_eq_length text hnul]

/-- C6 at `send a b c` and at `send ping`. -/
theorem C6_send_passes_text_after_first_space_witness :
    calls (parse_cmd engine_ok "send a b c".toList).trace = [.xb_send "a b c".toList 5]
    ∧ calls (parse_cmd engine_ok "send ping".toList).trace = [.xb_send "ping".toList 4] :=
  ⟨C6_send_passes_text_after_first_space engine_ok "a b c".toList (by decide),
   C6_send_passes_text_after_first_space engine_ok "ping".toList (by decide)⟩

/-- C7 (fails on the code): for a result `len` of `serial_read` in the range of `int`,
an empty read feeds nothing and a positive read calls `xb_raw_recv` once with `len`;
a negative `len` also enters the `len != 0` branch, where the dump loop reads
`rx_buff[i]` for every `i` below 2^64 + `len` and `xb_raw_recv` gets the length
2^64 + `len`, both beyond the 1024 bytes of `rx_buff`. -/
theorem C7_negative_read_is_fed_to_the_codec (len : Int)
    (hlo : -2147483648 ≤ len) (hhi : len ≤ 2147483647) :
    (len = 0 → rx_iteration len = [.usleep 1000])
    ∧ (0 < len → recv_lengths (rx_iteration len) = [len.toNat]
        ∧ dump_bounds (rx_iteration len) = [len.toNat])
    ∧ (len < 0 → recv_lengths (rx_iteration len) = [(2 ^ 64 + len).toNat]
        ∧ dump_bounds (rx_iteration len) = [(2 ^ 64 + len).toNat]
        ∧ BUFF_SIZE < (2 ^ 64 + len).toNat) := by
  refine ⟨?_, ?_, ?_⟩
  · intro h0
    subst h0
    rfl
  · intro hpos
    have hne : len ≠ 0 := by omega
    have hsz : to_size_t len = len.toNat := by
      unfold to_size_t SIZE_BITS
      rw [Int.emod_eq_of_lt (by omega) (by omega)]
    unfold rx_iteration
    rw [if_pos hne, hsz]
    exact ⟨rfl, rfl⟩
  · intro hneg
    have hne : len ≠ 0 := by omega
    have hsz : to_size_t len = (2 ^ 64 + len).toNat := by
      unfold to_size_t SIZE_BITS
      have e : len % 2 ^ 64 = (len + 2 ^ 64) % 2 ^ 64 := by simp
      rw [e, Int.emod_eq_of_lt (by omega) (by omega), Int.add_comm]
    unfold rx_iteration
    rw [if_pos hne, hsz]
    refine ⟨rfl, rfl, ?_⟩
    unfold BUFF_SIZE
    omega

/-- C7 at a read error, `serial_read` returning -1. -/
theorem C7_negative_read_is_fed_to_the_codec_witness :
    recv_lengths (rx_iteration (-1)) = [18446744073709551615]
    ∧ dump_bounds (rx_iteration (-1)) = [18446744073709551615]
    ∧ BUFF_SIZE < 18446744073709551615 :=
  (C7_negative_read_is_fed_to_the_codec (-1) (by decide) (by decide)).2.2 (by decide)

/-- C8 (fails on the code): for an argument of exactly 16 hexadecimal digits the `dst`
branch computes the number the digits denote only up to 0x7FFFFFFFFFFFFFFF;
`strtoll` returns `LLONG_MAX` for a larger numeral, so for every address whose most
significant bit is set the computed address is 0x7FFFFFFFFFFFFFFF and differs from
the number entered. -/
theorem C8_dst_address_saturates (arg : List Char) (h16 : arg.length = 16)
    (hhex : ∀ c ∈ arg, (hexDigit c).isSome = true) :
    dst_addr arg = min (hexValue (hexDigits arg)) 0x7FFFFFFFFFFFFFFF
    ∧ (0x8000000000000000 ≤ hexValue (hexDigits arg) →
        dst_addr arg = 0x7FFFFFFFFFFFFFFF ∧ dst_addr arg ≠ hexValue (hexDigits arg)) := by
  have hne : arg ≠ [] := by
    intro e
    rw [e] at h16
    simp at h16
  have h := dst_addr_hex_numeral arg hne hhex
  refine ⟨h, fun hbig => ?_⟩
  rw [h]
  omega

/-- C8 at `FFFFFFFFFFFFFFFF`: the address computed is 0x7FFFFFFFFFFFFFFF. -/
theorem C8_dst_address_saturates_witness :
    hexValue (hexDigits "FFFFFFFFFFFFFFFF".toList) = 0xFFFFFFFFFFFFFFFF
    ∧ dst_addr "FFFFFFFFFFFFFFFF".toList = 0x7FFFFFFFFFFFFFFF
    ∧ dst_addr "FFFFFFFFFFFFFFFF".toList ≠ hexValue (hexDigits "FFFFFFFFFFFFFFFF".toList) :=
  ⟨by decide,
   (C8_dst_address_saturates "FFFFFFFFFFFFFFFF".toList (by decide) (by decide)).2 (by decide)⟩

/-- C9 (fails on the code): whenever the `net_id` branch reaches its engine call (the
argument is one `strtol` cannot convert), `xb_set_net_id` is called while `parse_cmd`
holds `stdio_lock`, taken once and not yet released; the `send` branch releases the
lock before its call. -/
theorem C9_net_id_called_with_lock_held (E : Engine) (arg : List Char)
    (hnul : NUL ∉ arg) (hmal : (scan16 arg).converted = false) :
    held_at_calls 0 (parse_cmd E ("net_id ".toList ++ arg)).trace = [(.xb_set_net_id 0, 1)]
    ∧ held_at_calls 0 (parse_cmd E "send x".toList).trace
        = [(.xb_send "x".toList 1, 0)] := by
  constructor
  · obtain ⟨hcons, hval⟩ := scan16_not_converted arg hmal
    have hn : ¬ (strtol arg).2 ≠ 0 := fun h => h hcons
    have hna : net_id_value arg = 0 := by
      unfold net_id_value strtol
      rw [hval]
      rfl
    rw [parse_cmd_net_id_arg E arg hnul, if_neg hn, hna]
    rfl
  · have h : (parse_cmd E "send x".toList).trace
        = [.lock, .printf "sending: x\n", .unlock, .call (.xb_send "x".toList 1), .lock,
            report (E.xb_send "x".toList 1) "send failure!\n" "send complete\n",
            .unlock] := rfl
    rw [h]
    unfold report
    split_ifs <;> rfl

/-- C9 at `net_id zzz`. -/
theorem C9_net_id_called_with_lock_held_witness :
    held_at_calls 0 (parse_cmd engine_ok "net_id zzz".toList).trace
      = [(.xb_set_net_id 0, 1)] :=
  (C9_net_id_called_with_lock_held engine_ok "zzz".toList (by decide) (by decide)).1

/-- C10: for every sequence of input characters the loop of `tx_thread`, run on its
own, stores only inside `tx_buff` (no iteration fails) and `tx_i` is at most 1023 at
the top of the next iteration; a blank line calls `parse_cmd` not at all, and a line
of 1 to 1023 characters, typed at the start of a line, calls it exactly once, on a
buffer that holds the characters of the line followed by the terminating 0. -/
theorem C10_tx_index_in_bounds_and_lines (pre line : List Char)
    (hpre : pre = [] ∨ pre.getLast? = some (Char.ofNat 10))
    (hnl : ∀ c ∈ line, c.toNat ≠ 10) (hlen : line.length < 1024) :
    (∀ input : List Char, ∃ st ev, tx_run tx_init input = some (st, ev)
        ∧ st.tx_i ≤ 1023 ∧ st.tx_buff.length = BUFF_SIZE)
    ∧ ∃ st ev st1, tx_run tx_init pre = some (st, ev)
        ∧ tx_run tx_init (pre ++ (line ++ [Char.ofNat 10]))
            = some (st1, ev
                ++ ((if line = [] then []
                     else [TxEvent.parse_cmd
                            (line ++ NUL :: st.tx_buff.drop (line.length + 1))])
                    ++ [.lock, .printf "\n> ", .unlock]))
        ∧ cstr (line ++ NUL :: st.tx_buff.drop (line.length + 1)) = cstr line := by
  constructor
  · intro input
    exact tx_run_inv input tx_init tx_init_index tx_init_length
  · obtain ⟨st, ev, hrun, h0, hl⟩ := tx_run_line_start pre hpre
    obtain ⟨st1, hline⟩ := tx_run_line line st h0 hl hnl hlen
    exact ⟨st, ev, st1, hrun, tx_run_append _ _ _ _ _ _ _ hrun hline, cstr_append_nul _ _⟩

/-- C10 at the line `send a b` typed after the line `help`. -/
theorem C10_tx_index_in_bounds_and_lines_witness :
    ∃ st ev st1, tx_run tx_init "help\n".toList = some (st, ev)
      ∧ tx_run tx_init ("help\n".toList ++ ("send a b".toList ++ [Char.ofNat 10]))
          = some (st1, ev
              ++ ((if "send a b".toList = [] then []
                   else [TxEvent.parse_cmd
                          ("send a b".toList ++ NUL :: st.tx_buff.drop ("send a b".toList.length + 1))])
                  ++ [.lock, .printf "\n> ", .unlock]))
      ∧ cstr ("send a b".toList ++ NUL :: st.tx_buff.drop ("send a b".toList.length + 1))
          = cstr "send a b".toList :=
  (C10_tx_index_in_bounds_and_lines "help\n".toList "send a b".toList
    (Or.inr (by decide)) (by decide) (by decide)).2

end Darwin
